import Mathlib

/-!
Verification of the supvisors distributed supervision core.

The definitions below are a shallow embedding of `supervisors/statemachine.py`
together with models of the collaborators it calls.  The FSM file is embedded
from its source; the Context / deployer / parser / main-loop collaborators are
not part of the sources at hand, so their operations appear either as abstract
parameters of an environment record or as definitions modelled from the
specification (each such definition says so in its doc comment).

Machine integers do not occur: Python integers are unbounded and are mapped to
`Nat` (wall-clock seconds, sequence numbers).  The only subtraction used,
`time() - start_date`, feeds a strict `> synchro_timeout` comparison, for which
truncated `Nat` subtraction agrees with Python's signed subtraction.
-/

/-- Cluster FSM states (`supervisors/ttypes.py`: `SupervisorsStates`). -/
inductive SupervisorsStates where
  | INITIALIZATION
  | DEPLOYMENT
  | OPERATION
  | CONCILIATION
  deriving DecidableEq, Repr

/-- Per-host states (`supervisors/ttypes.py`: `AddressStates`). -/
inductive AddressStates where
  | UNKNOWN
  | CHECKING
  | RUNNING
  | SILENT
  | ISOLATING
  | ISOLATED
  deriving DecidableEq, Repr

/-- Modelled from the spec: "Isolation: terminal quarantine" — a host is in
isolation when its state is ISOLATING or ISOLATED (`AddressStatus.in_isolation`
lives in the address module, not among the sources at hand). -/
def AddressStates.in_isolation : AddressStates → Bool
  | .ISOLATING => true
  | .ISOLATED => true
  | _ => false

/-- One per-host liveness record: the `_state` and `checked` fields touched by
the state machine (`status._state`, `status.checked`). -/
structure AddressStatus where
  state : AddressStates
  checked : Bool
  deriving DecidableEq, Repr

/-- The slice of the Context that `statemachine.py` reads and writes:
the elected master address, the per-host status map, and the results of the
Context queries that are computed from data (processes) outside this model. -/
structure Context where
  master_address : String
  addresses : List (String × AddressStatus)
  /-- result of `context.conflicting()` (derived from process records,
  which are outside this model) -/
  conflicting : Bool
  /-- result of `context.marked_processes()` (process namespecs) -/
  marked_processes : List String
  deriving DecidableEq, Repr

/-- Dictionary lookup `context.addresses[a]`; `none` models a `KeyError`. -/
def Context.findStatus (ctx : Context) (a : String) : Option AddressStatus :=
  ctx.addresses.lookup a

/-- Modelled from the spec: `running_addresses()` returns the addresses of the
hosts currently in RUNNING state (the Context method is not among the sources
at hand). -/
def Context.running_addresses (ctx : Context) : List String :=
  (ctx.addresses.filter (fun p => p.2.state = AddressStates.RUNNING)).map Prod.fst

/-- Modelled from the spec: `unknown_addresses()` returns the addresses of the
hosts still in UNKNOWN state (the Context method is not among the sources at
hand). -/
def Context.unknown_addresses (ctx : Context) : List String :=
  (ctx.addresses.filter (fun p => p.2.state = AddressStates.UNKNOWN)).map Prod.fst

/-- Modelled from the spec: `context.master` is true on the agent whose local
address is the elected `master_address` ("Master: the single agent per epoch
chosen to drive deployment and reconciliation"). -/
def Context.master (ctx : Context) (local_address : String) : Bool :=
  ctx.master_address = local_address

/-- Abstract collaborators and configuration seen by the state machine:
options, wall clock, deployer queries, and the Context operations whose code
is outside the embedded file.  These are parameters, not stubs: the theorems
hold for every instantiation. -/
structure Env where
  /-- field `supervisors.address_mapper.local_address` -/
  local_address : String
  /-- option `synchro_timeout` (seconds) -/
  synchro_timeout : Nat
  /-- value of `time()` during the call -/
  now : Nat
  /-- option `auto_fence` -/
  auto_fence : Bool
  /-- result of `deployer.check_deployment()` -/
  check_deployment : Bool
  /-- result of `deployer.in_progress()` -/
  in_progress : Bool
  /-- call `context.on_timer_event()` (Context code outside this model) -/
  ctx_on_timer : Context → Context
  /-- call `context.on_process_event(address, event)`: returns the updated context
  and the changed process (`none` models Python `None`) -/
  ctx_on_process_event : Context → String → String → Context × Option String
  /-- the application start-sequence/status refresh performed at the top of
  `DeploymentState.enter` (application records are outside this model) -/
  update_applications : Context → Context

/-- Side effects of the state machine, recorded in emission order. -/
inductive LogEvent where
  /-- call of `publisher.send_supervisors_status` inside `update_instance` -/
  | publishStatus (s : SupervisorsStates)
  /-- the `enter()` action of the named state starts running -/
  | enterAction (s : SupervisorsStates)
  /-- the `exit()` action of the named state starts running -/
  | exitAction (s : SupervisorsStates)
  /-- call of `context.on_timer_event()` -/
  | ctxTimer
  /-- call of `deployer.deploy_marked_processes(ms)` -/
  | deployMarked (ms : List String)
  /-- call of `deployer.deploy_applications(...)` -/
  | deployApplications
  /-- call of `conciliate(...)` -/
  | conciliateCall
  /-- call of `deployer.deploy_on_event(p)` -/
  | deployOnEvent (p : String)
  /-- call of `context.handle_isolation()` -/
  | handleIsolationCall
  deriving DecidableEq, Repr

/-- Whole state of the `FiniteStateMachine`: the current state, the
`start_date` attribute of the (current) `InitializationState` instance, and
the shared context. -/
structure FsmState where
  state : SupervisorsStates
  start_date : Nat
  ctx : Context
  deriving DecidableEq, Repr

/-- Embeds `InitializationState.next` (statemachine.py lines 57-71). -/
def InitializationState.next (env : Env) (ctx : Context) (start_date : Nat) :
    SupervisorsStates :=
  if env.local_address ∈ ctx.running_addresses then
    if ctx.unknown_addresses.length = 0 then
      SupervisorsStates.DEPLOYMENT
    else if env.now - start_date > env.synchro_timeout then
      SupervisorsStates.DEPLOYMENT
    else
      SupervisorsStates.INITIALIZATION
  else
    SupervisorsStates.INITIALIZATION

/-- Python string comparison: lexicographic on unicode code points, a strict
prefix compares smaller.  This is the order `min(...)` uses in
`InitializationState.exit`. -/
def charsLt : List Char → List Char → Bool
  | _, [] => false
  | [], _ :: _ => true
  | a :: as, b :: bs =>
    if a < b then true else if b < a then false else charsLt as bs

/-- Python `a < b` on strings. -/
def strLt (a b : String) : Bool :=
  charsLt a.data b.data

/-- One comparison step of Python `min`: keep the accumulator unless the next
element is strictly smaller. -/
def pyminStep (acc y : String) : String :=
  if strLt y acc then y else acc

/-- Python `min(xs)` on a list of strings: `none` models the `ValueError`
raised on an empty list; on a non-empty list it keeps the first smallest
element, scanning left to right. -/
def pymin : List String → Option String
  | [] => none
  | x :: xs => some (xs.foldl pyminStep x)

/-- Modelled from the spec: `end_synchro()` "promotes every still-UNKNOWN host
to SILENT (and to ISOLATING if auto-fencing)" (the Context method is not among
the sources at hand). -/
def Context.end_synchro (ctx : Context) (auto_fence : Bool) : Context :=
  { ctx with addresses := ctx.addresses.map (fun p =>
      if p.2.state = AddressStates.UNKNOWN then
        (p.1, { p.2 with state :=
          if auto_fence then AddressStates.ISOLATING else AddressStates.SILENT })
      else p) }

/-- Modelled from the spec: `handle_isolation()` "transitions every ISOLATING
host to ISOLATED and returns the list of newly isolated addresses" (the
Context method is not among the sources at hand). -/
def Context.handle_isolation (ctx : Context) : Context × List String :=
  ({ ctx with addresses := ctx.addresses.map (fun p =>
      if p.2.state = AddressStates.ISOLATING then
        (p.1, { p.2 with state := AddressStates.ISOLATED })
      else p) },
   (ctx.addresses.filter (fun p => p.2.state = AddressStates.ISOLATING)).map Prod.fst)

/-- Embeds `InitializationState.enter` (lines 47-55): clear the master address,
record `start_date = time()`, and force-reset every non-isolated host to
UNKNOWN with `checked = False`. -/
def InitializationState.enter (env : Env) (fs : FsmState) : FsmState :=
  { fs with
    start_date := env.now,
    ctx := { fs.ctx with
      master_address := "",
      addresses := fs.ctx.addresses.map (fun p =>
        if p.2.state.in_isolation then p
        else (p.1, { state := AddressStates.UNKNOWN, checked := false })) } }

/-- Embeds `InitializationState.exit` (lines 73-79): `end_synchro()`, then
`master_address = min(running_addresses())`.  `none` models the `ValueError`
Python's `min` raises when no host is RUNNING. -/
def InitializationState.exit (env : Env) (fs : FsmState) : Option FsmState :=
  match pymin (fs.ctx.end_synchro env.auto_fence).running_addresses with
  | none => none
  | some m => some
      { fs with ctx := { fs.ctx.end_synchro env.auto_fence with master_address := m } }

/-- Embeds `DeploymentState.enter` (lines 84-91): refresh application sequences and
status, then, only on the master, hand the application list to the deployer. -/
def DeploymentState.enter (env : Env) (fs : FsmState) : FsmState × List LogEvent :=
  let ctx1 := env.update_applications fs.ctx
  ({ fs with ctx := ctx1 },
   if ctx1.master env.local_address then [LogEvent.deployApplications] else [])

/-- Embeds `DeploymentState.next` (lines 93-96). -/
def DeploymentState.next (env : Env) (ctx : Context) : SupervisorsStates :=
  if env.check_deployment then
    if ctx.conflicting then SupervisorsStates.CONCILIATION
    else SupervisorsStates.OPERATION
  else SupervisorsStates.DEPLOYMENT

/-- Embeds `OperationState.next` (lines 101-110).  Here `none` models the `KeyError` of a
failed dictionary access; the master status is only looked up after the local
one was found RUNNING, as in the source. -/
def OperationState.next (env : Env) (ctx : Context) : Option SupervisorsStates :=
  match ctx.findStatus env.local_address with
  | none => none
  | some stL =>
    if stL.state ≠ AddressStates.RUNNING then some SupervisorsStates.INITIALIZATION
    else match ctx.findStatus ctx.master_address with
      | none => none
      | some stM =>
        if stM.state ≠ AddressStates.RUNNING then some SupervisorsStates.INITIALIZATION
        else if ctx.conflicting then some SupervisorsStates.CONCILIATION
        else some SupervisorsStates.OPERATION

/-- Embeds `ConciliationState.enter` (lines 115-118): only the master conciliates. -/
def ConciliationState.enter (env : Env) (fs : FsmState) : FsmState × List LogEvent :=
  (fs, if fs.ctx.master env.local_address then [LogEvent.conciliateCall] else [])

/-- Embeds `ConciliationState.next` (lines 120-129). -/
def ConciliationState.next (env : Env) (ctx : Context) : Option SupervisorsStates :=
  match ctx.findStatus env.local_address with
  | none => none
  | some stL =>
    if stL.state ≠ AddressStates.RUNNING then some SupervisorsStates.INITIALIZATION
    else match ctx.findStatus ctx.master_address with
      | none => none
      | some stM =>
        if stM.state ≠ AddressStates.RUNNING then some SupervisorsStates.INITIALIZATION
        else if ¬ctx.conflicting then some SupervisorsStates.OPERATION
        else some SupervisorsStates.CONCILIATION

/-- Dispatch of `self.instance.next()` on the current state. -/
def stateNext (env : Env) (fs : FsmState) : Option SupervisorsStates :=
  match fs.state with
  | SupervisorsStates.INITIALIZATION =>
      some (InitializationState.next env fs.ctx fs.start_date)
  | SupervisorsStates.DEPLOYMENT => some (DeploymentState.next env fs.ctx)
  | SupervisorsStates.OPERATION => OperationState.next env fs.ctx
  | SupervisorsStates.CONCILIATION => ConciliationState.next env fs.ctx

/-- Dispatch of `self.instance.enter()`; the log starts with an
`enterAction` marker for the state being entered. -/
def stateEnter (env : Env) (fs : FsmState) : FsmState × List LogEvent :=
  match fs.state with
  | SupervisorsStates.INITIALIZATION =>
      (InitializationState.enter env fs, [LogEvent.enterAction fs.state])
  | SupervisorsStates.DEPLOYMENT =>
      let r := DeploymentState.enter env fs
      (r.1, LogEvent.enterAction fs.state :: r.2)
  | SupervisorsStates.OPERATION => (fs, [LogEvent.enterAction fs.state])
  | SupervisorsStates.CONCILIATION =>
      let r := ConciliationState.enter env fs
      (r.1, LogEvent.enterAction fs.state :: r.2)

/-- Dispatch of `self.instance.exit()`; `none` propagates the only failing
exit (INITIALIZATION with no RUNNING host). -/
def stateExit (env : Env) (fs : FsmState) : Option (FsmState × List LogEvent) :=
  match fs.state with
  | SupervisorsStates.INITIALIZATION =>
      match InitializationState.exit env fs with
      | none => none
      | some fs1 => some (fs1, [LogEvent.exitAction fs.state])
  | s => some (fs, [LogEvent.exitAction s])

/-- Legal transitions (`FiniteStateMachine.__Transitions`, lines 204-209). -/
def Transitions : SupervisorsStates → List SupervisorsStates
  | SupervisorsStates.INITIALIZATION => [SupervisorsStates.DEPLOYMENT]
  | SupervisorsStates.DEPLOYMENT =>
      [SupervisorsStates.OPERATION, SupervisorsStates.CONCILIATION]
  | SupervisorsStates.OPERATION =>
      [SupervisorsStates.CONCILIATION, SupervisorsStates.INITIALIZATION]
  | SupervisorsStates.CONCILIATION =>
      [SupervisorsStates.OPERATION, SupervisorsStates.INITIALIZATION]

/-- Embeds `FiniteStateMachine.next` (lines 147-156): re-evaluate in a loop; while
the evaluated state differs from the current one and is allowed by the
transition table, run `exit()`, install the new state (which publishes the
supervisor-status event), run `enter()`, and evaluate again.  The loop is
given fuel (the Python `while` has no bound); running out of fuel, like an
escaping exception, stops with the current state and the log so far. -/
def fsmNextAux (env : Env) : Nat → FsmState → FsmState × List LogEvent
  | 0, fs => (fs, [])
  | fuel + 1, fs =>
    match stateNext env fs with
    | none => (fs, [])
    | some ns =>
      if ns ≠ fs.state ∧ ns ∈ Transitions fs.state then
        match stateExit env fs with
        | none => (fs, [])
        | some fsl =>
          let el := stateEnter env { fsl.1 with state := ns }
          let rest := fsmNextAux env fuel el.1
          (rest.1, fsl.2 ++ (LogEvent.publishStatus ns :: el.2) ++ rest.2)
      else (fs, [])

/-- The sequence of states installed (`update_instance`) by one
`FiniteStateMachine.next` call, in chaining order. -/
def fsmChain (env : Env) : Nat → FsmState → List SupervisorsStates
  | 0, _ => []
  | fuel + 1, fs =>
    match stateNext env fs with
    | none => []
    | some ns =>
      if ns ≠ fs.state ∧ ns ∈ Transitions fs.state then
        match stateExit env fs with
        | none => []
        | some fsl =>
          ns :: fsmChain env fuel (stateEnter env { fsl.1 with state := ns }).1
      else []

/-- Embeds `FiniteStateMachine.on_timer_event` (lines 166-175): context timer
processing, then `next()`, then — on the master only —
`deployer.deploy_marked_processes(marked_processes())`, and finally
`handle_isolation()`, whose address list is the return value. -/
def fsm_on_timer_event (env : Env) (fuel : Nat) (fs : FsmState) :
    FsmState × List LogEvent × List String :=
  let ctx1 := env.ctx_on_timer fs.ctx
  let step := fsmNextAux env fuel { fs with ctx := ctx1 }
  let deployLog :=
    if step.1.ctx.master env.local_address then
      [LogEvent.deployMarked step.1.ctx.marked_processes]
    else []
  let iso := step.1.ctx.handle_isolation
  ({ step.1 with ctx := iso.1 },
   LogEvent.ctxTimer :: (step.2 ++ deployLog ++ [LogEvent.handleIsolationCall]),
   iso.2)

/-- Embeds `FiniteStateMachine.on_process_event` (lines 182-188): feed the event to
the context; if it reports a changed process and the deployer has a deployment
in progress, trigger `deploy_on_event` on that process. -/
def fsm_on_process_event (env : Env) (ctx : Context) (address : String)
    (event : String) : Context × List LogEvent :=
  let r := env.ctx_on_process_event ctx address event
  (r.1,
   match r.2 with
   | some p => if env.in_progress then [LogEvent.deployOnEvent p] else []
   | none => [])

/-- Events `check_address` sends to the local agent
(`send_remote_comm_event`). -/
inductive CommEvent where
  /-- event `auth(address_name=<a>, authorized=<b>)` -/
  | auth (address_name : String) (authorized : Bool)
  /-- event `info(<a>, <process list>)` -/
  | info (address_name : String) (process_list : List String)
  deriving DecidableEq, Repr

/-- Outcome of the RPC conversation `check_address` holds with the remote
process manager: either the connection/RPC fails, or it yields the remote's
self-reported cluster state and its local process info list. -/
inductive RpcResult where
  | failure
  | ok (remoteState : AddressStates) (process_list : List String)
  deriving DecidableEq, Repr

/-- Modelled from the spec: the `check_address(addr)` protocol of the Main
Loop (§4.4; `mainloop.py` is not among the sources at hand).  An RPC error is
swallowed and nothing is emitted; a remote in ISOLATING or ISOLATED state gets
`auth(addr, false)` and nothing else; otherwise `info(addr, process_list)` is
emitted followed by `auth(addr, true)`. -/
def check_address (addr : String) (rpc : RpcResult) : List CommEvent :=
  match rpc with
  | RpcResult.failure => []
  | RpcResult.ok st process_list =>
    if st = AddressStates.ISOLATING ∨ st = AddressStates.ISOLATED then
      [CommEvent.auth addr false]
    else
      [CommEvent.info addr process_list, CommEvent.auth addr true]

/-- Running-failure strategies (`supvisors/ttypes.py`:
`RunningFailureStrategies`). -/
inductive RunningFailureStrategies where
  | CONTINUE
  | RESTART_PROCESS
  | STOP_APPLICATION
  | RESTART_APPLICATION
  deriving DecidableEq, Repr

/-- The per-process rule record (§3 / §6 of the spec). -/
structure ProcessRules where
  addresses : List String
  start_sequence : Nat
  stop_sequence : Nat
  required : Bool
  wait_exit : Bool
  expected_loading : Nat
  running_failure_strategy : RunningFailureStrategies
  deriving DecidableEq, Repr

/-- The documented default process rules: `addresses=["*"]`, sequences 0,
required false, wait_exit false, loading 1, running_failure CONTINUE.  These
are the values a fresh `ProcessStatus` carries before any load. -/
def defaultProcessRules : ProcessRules :=
  { addresses := ["*"]
    start_sequence := 0
    stop_sequence := 0
    required := false
    wait_exit := false
    expected_loading := 1
    running_failure_strategy := RunningFailureStrategies.CONTINUE }

/-- The rule fields a matched program entry of the rules file may specify;
`none` means the field is absent from the entry. -/
structure ProgramRuleFields where
  addresses : Option (List String)
  start_sequence : Option Nat
  stop_sequence : Option Nat
  required : Option Bool
  wait_exit : Option Bool
  expected_loading : Option Nat
  running_failure_strategy : Option RunningFailureStrategies
  deriving DecidableEq, Repr

/-- A program entry with no field at all (an empty `<program>` element). -/
def emptyProgramRuleFields : ProgramRuleFields :=
  { addresses := none
    start_sequence := none
    stop_sequence := none
    required := none
    wait_exit := none
    expected_loading := none
    running_failure_strategy := none }

/-- What the rules file associates to a process name: no entry at all, an
entry with inline fields, or an entry referring to a named model. -/
inductive ProgramEntry where
  | absent
  | direct (fields : ProgramRuleFields)
  | reference (model : String)
  deriving DecidableEq, Repr

/-- Modelled from the spec: applying the fields of a matched program entry to
a process rule record (`sparser.py` is not among the sources at hand).  Each
field present in the entry overwrites the current value; each absent field
leaves the current value untouched; "Loading outside 1..100 clamps to 1". -/
def applyProgramRuleFields (f : ProgramRuleFields) (r : ProcessRules) :
    ProcessRules :=
  { addresses := f.addresses.getD r.addresses
    start_sequence := f.start_sequence.getD r.start_sequence
    stop_sequence := f.stop_sequence.getD r.stop_sequence
    required := f.required.getD r.required
    wait_exit := f.wait_exit.getD r.wait_exit
    expected_loading :=
      match f.expected_loading with
      | none => r.expected_loading
      | some l => if 1 ≤ l ∧ l ≤ 100 then l else 1
    running_failure_strategy :=
      f.running_failure_strategy.getD r.running_failure_strategy }

/-- Modelled from the spec: `load_process_rules` resolves the program entry
matched for the process — directly, or through the model map for a reference —
and applies its fields to the process rules; an absent entry or an unknown
reference changes nothing, so that "Unknown/empty references fall back to
documented defaults" on a fresh record (`sparser.py` is not among the sources
at hand). -/
def load_process_rules (models : List (String × ProgramRuleFields))
    (entry : ProgramEntry) (r : ProcessRules) : ProcessRules :=
  match entry with
  | ProgramEntry.absent => r
  | ProgramEntry.direct f => applyProgramRuleFields f r
  | ProgramEntry.reference m =>
    match models.lookup m with
    | none => r
    | some f => applyProgramRuleFields f r

/-- Checks that a sequence of installed states, starting from `s`, only steps
to a state that differs from the current one and is in the transition table. -/
def legalChainB : SupervisorsStates → List SupervisorsStates → Bool
  | _, [] => true
  | s, v :: r =>
    if v ≠ s ∧ v ∈ Transitions s then legalChainB v r else false

/-- The log events that matter to publication ordering: status publications
and the start of `enter()` actions. -/
def isPubOrEnter : LogEvent → Bool
  | LogEvent.publishStatus _ => true
  | LogEvent.enterAction _ => true
  | _ => false

/-- The publication/enter skeleton a chain of installed states should leave in
the log: for each installed state, its publication immediately followed by the
start of its `enter()` action. -/
def pubEnterSeq : List SupervisorsStates → List LogEvent
  | [] => []
  | v :: r => LogEvent.publishStatus v :: LogEvent.enterAction v :: pubEnterSeq r

/-- The INITIALIZATION evaluation as the claim words it: a flat else-if chain
in which a reached synchro timeout alone forces DEPLOYMENT.  Kept separate
from `InitializationState.next` to compare the two. -/
def InitializationState.nextClaim (env : Env) (ctx : Context)
    (start_date : Nat) : SupervisorsStates :=
  if env.local_address ∈ ctx.running_addresses ∧ ctx.unknown_addresses.length = 0 then
    SupervisorsStates.DEPLOYMENT
  else if env.now - start_date > env.synchro_timeout then
    SupervisorsStates.DEPLOYMENT
  else
    SupervisorsStates.INITIALIZATION

/-- A concrete sample environment: local address 10.0.0.1, 10 s synchro
timeout, clock at 100 s, identity collaborators. -/
def env0 : Env :=
  { local_address := "10.0.0.1"
    synchro_timeout := 10
    now := 100
    auto_fence := false
    check_deployment := true
    in_progress := false
    ctx_on_timer := fun c => c
    ctx_on_process_event := fun c _ _ => (c, none)
    update_applications := fun c => c }

/-- A sample context where the only known peer is SILENT: the local host is
not RUNNING and no host is UNKNOWN. -/
def ctxSilentPeer : Context :=
  { master_address := ""
    addresses := [("10.0.0.2", { state := AddressStates.SILENT, checked := false })]
    conflicting := false
    marked_processes := [] }

/-- A sample context where both hosts are RUNNING and 10.0.0.1 is master. -/
def ctxAllRunning : Context :=
  { master_address := "10.0.0.1"
    addresses :=
      [("10.0.0.1", { state := AddressStates.RUNNING, checked := true }),
       ("10.0.0.2", { state := AddressStates.RUNNING, checked := true })]
    conflicting := false
    marked_processes := [] }

section OrderLemmas

theorem charsLt_nil_cons (b : Char) (bs : List Char) :
    charsLt [] (b :: bs) = true := rfl

theorem charsLt_nil_right (xs : List Char) : charsLt xs [] = false := by
  cases xs <;> rfl

theorem charsLt_cons {a b : Char} {as bs : List Char} :
    charsLt (a :: as) (b :: bs) = true ↔
      a < b ∨ (a = b ∧ charsLt as bs = true) := by
  show (if a < b then true else if b < a then false else charsLt as bs) = true ↔ _
  by_cases h1 : a < b
  · simp [h1]
  · by_cases h2 : b < a
    · simp [h1, h2, (ne_of_gt h2 : a ≠ b)]
    · have hab : a = b := le_antisymm (not_lt.mp h2) (not_lt.mp h1)
      simp [h1, h2, hab]

theorem charsLt_trans {xs ys zs : List Char} (h1 : charsLt xs ys = true)
    (h2 : charsLt ys zs = true) : charsLt xs zs = true := by
  induction xs generalizing ys zs with
  | nil =>
    cases zs with
    | nil =>
      cases ys with
      | nil => exact h1
      | cons b bs => rw [charsLt_nil_right] at h2; exact h2
    | cons c cs => exact charsLt_nil_cons c cs
  | cons a as ih =>
    cases ys with
    | nil => rw [charsLt_nil_right] at h1; exact Bool.noConfusion h1
    | cons b bs =>
      cases zs with
      | nil => rw [charsLt_nil_right] at h2; exact Bool.noConfusion h2
      | cons c cs =>
        rw [charsLt_cons] at h1 h2 ⊢
        rcases h1 with hab | ⟨hab, h1'⟩
        · rcases h2 with hbc | ⟨hbc, _⟩
          · exact Or.inl (lt_trans hab hbc)
          · exact Or.inl (hbc ▸ hab)
        · rcases h2 with hbc | ⟨hbc, h2'⟩
          · exact Or.inl (hab ▸ hbc)
          · exact Or.inr ⟨hab.trans hbc, ih h1' h2'⟩

theorem charsLt_connex {xs ys : List Char} (h1 : charsLt xs ys = false)
    (h2 : charsLt ys xs = false) : xs = ys := by
  induction xs generalizing ys with
  | nil =>
    cases ys with
    | nil => rfl
    | cons b bs => rw [charsLt_nil_cons] at h1; exact Bool.noConfusion h1
  | cons a as ih =>
    cases ys with
    | nil => rw [charsLt_nil_cons] at h2; exact Bool.noConfusion h2
    | cons b bs =>
      simp only [charsLt] at h1 h2
      by_cases hab : a < b
      · rw [if_pos hab] at h1
        exact Bool.noConfusion h1
      · by_cases hba : b < a
        · rw [if_pos hba] at h2
          exact Bool.noConfusion h2
        · have he : a = b := le_antisymm (not_lt.mp hba) (not_lt.mp hab)
          rw [if_neg hab, if_neg hba] at h1
          rw [if_neg hba, if_neg hab] at h2
          rw [he, ih h1 h2]

theorem strLt_trans {a b c : String} (h1 : strLt a b = true)
    (h2 : strLt b c = true) : strLt a c = true :=
  charsLt_trans h1 h2

theorem strLt_connex {a b : String} (h1 : strLt a b = false)
    (h2 : strLt b a = false) : a = b := by
  cases a; cases b
  exact congrArg String.mk (charsLt_connex h1 h2)

theorem foldl_pyminStep_mem (xs : List String) (acc : String) :
    xs.foldl pyminStep acc = acc ∨ xs.foldl pyminStep acc ∈ xs := by
  induction xs generalizing acc with
  | nil => exact Or.inl rfl
  | cons y ys ih =>
    have hfold : (y :: ys).foldl pyminStep acc
        = ys.foldl pyminStep (pyminStep acc y) := rfl
    rw [hfold]
    cases hy : strLt y acc with
    | true =>
      have hstep : pyminStep acc y = y := by simp [pyminStep, hy]
      rw [hstep]
      rcases ih y with h | h
      · exact Or.inr (by simp [h])
      · exact Or.inr (by simp [h])
    | false =>
      have hstep : pyminStep acc y = acc := by simp [pyminStep, hy]
      rw [hstep]
      rcases ih acc with h | h
      · exact Or.inl h
      · exact Or.inr (by simp [h])

theorem foldl_pyminStep_min (xs : List String) :
    ∀ acc a : String, a = acc ∨ a ∈ xs →
      a = xs.foldl pyminStep acc ∨ strLt (xs.foldl pyminStep acc) a = true := by
  induction xs with
  | nil =>
    intro acc a ha
    rcases ha with h | h
    · exact Or.inl h
    · exact absurd h (List.not_mem_nil a)
  | cons y ys ih =>
    intro acc a ha
    have hfold : (y :: ys).foldl pyminStep acc
        = ys.foldl pyminStep (pyminStep acc y) := rfl
    rw [hfold]
    cases hy : strLt y acc with
    | true =>
      have hstep : pyminStep acc y = y := by simp [pyminStep, hy]
      rw [hstep]
      rcases ha with h | h
      · -- a is the old accumulator, strictly above y
        rcases ih y y (Or.inl rfl) with h' | h'
        · right
          rw [h, ← h']
          exact hy
        · right
          rw [h]
          exact strLt_trans h' hy
      · rcases List.mem_cons.mp h with h' | h'
        · exact ih y a (Or.inl h')
        · exact ih y a (Or.inr h')
    | false =>
      have hstep : pyminStep acc y = acc := by simp [pyminStep, hy]
      rw [hstep]
      rcases ha with h | h
      · exact ih acc a (Or.inl h)
      · rcases List.mem_cons.mp h with h' | h'
        · -- a = y, and y is not strictly below the old accumulator
          by_cases hra : strLt (ys.foldl pyminStep acc) a = true
          · exact Or.inr hra
          · left
            have hra' : strLt (ys.foldl pyminStep acc) a = false := by
              simpa using hra
            rcases ih acc acc (Or.inl rfl) with h2 | h2
            · have hya : strLt a (ys.foldl pyminStep acc) = false := by
                rw [← h2, h']
                exact hy
              exact strLt_connex hya hra'
            · have hya : strLt a (ys.foldl pyminStep acc) = false := by
                by_cases hc : strLt a (ys.foldl pyminStep acc) = true
                · have hac := strLt_trans hc h2
                  rw [h'] at hac
                  rw [hac] at hy
                  exact Bool.noConfusion hy
                · simpa using hc
              exact strLt_connex hya hra'
        · exact ih acc a (Or.inr h')

/-- Applied to a non-empty list, `pymin` returns an element of it that no other
element of the list is lexicographically below. -/
theorem pymin_spec (x : String) (xs : List String) :
    ∃ m, pymin (x :: xs) = some m ∧ m ∈ x :: xs ∧
      ∀ a ∈ x :: xs, a = m ∨ strLt m a = true := by
  refine ⟨xs.foldl pyminStep x, rfl, ?_, ?_⟩
  · rcases foldl_pyminStep_mem xs x with h | h
    · simp [h]
    · simp [h]
  · intro a ha
    rcases List.mem_cons.mp ha with h | h
    · exact foldl_pyminStep_min xs x a (Or.inl h)
    · exact foldl_pyminStep_min xs x a (Or.inr h)

end OrderLemmas

section FsmLemmas

/-- The `enter()` action never changes the FSM's current state field. -/
theorem stateEnter_state (env : Env) (fs : FsmState) :
    (stateEnter env fs).1.state = fs.state := by
  rcases fs with ⟨s, d, c⟩
  cases s <;>
    simp [stateEnter, InitializationState.enter, DeploymentState.enter,
      ConciliationState.enter]

/-- An `exit()` action produces exactly its start marker in the log. -/
theorem stateExit_log (env : Env) (fs : FsmState) (fsl : FsmState × List LogEvent)
    (h : stateExit env fs = some fsl) :
    fsl.2 = [LogEvent.exitAction fs.state] := by
  rcases fs with ⟨s, d, c⟩
  cases s with
  | INITIALIZATION =>
    simp only [stateExit] at h
    cases hx : InitializationState.exit env ⟨SupervisorsStates.INITIALIZATION, d, c⟩ with
    | none => rw [hx] at h; exact Option.noConfusion h
    | some fs1 =>
      rw [hx] at h
      cases h
      rfl
  | DEPLOYMENT => cases h; rfl
  | OPERATION => cases h; rfl
  | CONCILIATION => cases h; rfl

/-- The publication/enter skeleton of an `enter()` log is exactly the enter
marker of the state being entered. -/
theorem stateEnter_log_filter (env : Env) (fs : FsmState) :
    (stateEnter env fs).2.filter isPubOrEnter = [LogEvent.enterAction fs.state] := by
  rcases fs with ⟨s, d, c⟩
  cases s with
  | INITIALIZATION => rfl
  | DEPLOYMENT =>
    simp only [stateEnter, DeploymentState.enter]
    split_ifs <;> simp [isPubOrEnter]
  | OPERATION => rfl
  | CONCILIATION =>
    simp only [stateEnter, ConciliationState.enter]
    split_ifs <;> simp [isPubOrEnter]

/-- The call `deploy_marked_processes` never happens inside `next()`. -/
theorem stateEnter_no_deployMarked (env : Env) (fs : FsmState) (ms : List String) :
    LogEvent.deployMarked ms ∉ (stateEnter env fs).2 := by
  rcases fs with ⟨s, d, c⟩
  cases s with
  | INITIALIZATION => simp [stateEnter]
  | DEPLOYMENT =>
    simp only [stateEnter, DeploymentState.enter]
    split_ifs <;> simp
  | OPERATION => simp [stateEnter]
  | CONCILIATION =>
    simp only [stateEnter, ConciliationState.enter]
    split_ifs <;> simp

/-- Running `end_synchro` does not touch the set of RUNNING hosts: it only promotes
UNKNOWN ones to SILENT or ISOLATING. -/
theorem end_synchro_running (ctx : Context) (auto_fence : Bool) :
    (ctx.end_synchro auto_fence).running_addresses = ctx.running_addresses := by
  unfold Context.end_synchro Context.running_addresses
  simp only []
  induction ctx.addresses with
  | nil => rfl
  | cons p ps ih =>
    by_cases hp : p.2.state = AddressStates.UNKNOWN
    · have hrun : ¬ p.2.state = AddressStates.RUNNING := by
        rw [hp]; intro hc; exact AddressStates.noConfusion hc
      have hnew : ¬ (if auto_fence then AddressStates.ISOLATING
          else AddressStates.SILENT) = AddressStates.RUNNING := by
        split_ifs <;> simp
      simp [hp, hrun, hnew, ih]
    · simp only [List.map_cons, if_neg hp]
      by_cases hrun : p.2.state = AddressStates.RUNNING
      · simp [hrun, List.filter_cons, ih]
      · simp [List.filter_cons, hrun, ih]

end FsmLemmas

section ClaimTheorems

/-- C9: `on_process_event` triggers `deploy_on_event(p)` exactly when the
Context reported `p` as a changed process and the deployer has a deployment
in progress; in particular nothing is triggered while no deployment is in
progress. -/
theorem on_process_event_deployer_iff (env : Env) (ctx : Context)
    (a e p : String) :
    LogEvent.deployOnEvent p ∈ (fsm_on_process_event env ctx a e).2 ↔
      ((env.ctx_on_process_event ctx a e).2 = some p ∧ env.in_progress = true) := by
  simp only [fsm_on_process_event]
  cases h : (env.ctx_on_process_event ctx a e).2 with
  | none => simp
  | some q =>
    cases hp : env.in_progress with
    | true => simp [eq_comm]
    | false => simp

/-- C5: the `check_address` protocol: an RPC failure emits nothing; a remote
self-reporting ISOLATING or ISOLATED gets exactly one negative auth event and
no info event; any other remote gets an info event followed by a positive
auth event. -/
theorem check_address_event_protocol (addr : String) (rpc : RpcResult) :
    (rpc = RpcResult.failure → check_address addr rpc = []) ∧
    (∀ st pl, rpc = RpcResult.ok st pl →
      (st = AddressStates.ISOLATING ∨ st = AddressStates.ISOLATED) →
      check_address addr rpc = [CommEvent.auth addr false]) ∧
    (∀ st pl, rpc = RpcResult.ok st pl →
      ¬(st = AddressStates.ISOLATING ∨ st = AddressStates.ISOLATED) →
      check_address addr rpc
        = [CommEvent.info addr pl, CommEvent.auth addr true]) := by
  refine ⟨?_, ?_, ?_⟩
  · rintro rfl
    rfl
  · rintro st pl rfl h
    simp [check_address, h]
  · rintro st pl rfl h
    simp [check_address, h]

theorem check_address_event_protocol_witness :
    check_address "10.0.0.1" RpcResult.failure = [] ∧
    check_address "10.0.0.1" (RpcResult.ok AddressStates.ISOLATED ["dummy_list"])
      = [CommEvent.auth "10.0.0.1" false] ∧
    check_address "10.0.0.1" (RpcResult.ok AddressStates.RUNNING ["dummy_list"])
      = [CommEvent.info "10.0.0.1" ["dummy_list"], CommEvent.auth "10.0.0.1" true] :=
  ⟨(check_address_event_protocol "10.0.0.1" RpcResult.failure).1 rfl,
   (check_address_event_protocol "10.0.0.1" _).2.1 _ _ rfl (Or.inr rfl),
   (check_address_event_protocol "10.0.0.1" _).2.2 _ _ rfl (by decide)⟩

/-- C7: a process whose program rules are absent, empty, or carry an unknown
model reference resolves to the documented default rules:
`addresses=["*"]`, sequences 0, required false, wait_exit false, loading 1,
running-failure CONTINUE. -/
theorem load_process_rules_defaults (models : List (String × ProgramRuleFields))
    (entry : ProgramEntry)
    (h : entry = ProgramEntry.absent ∨
      entry = ProgramEntry.direct emptyProgramRuleFields ∨
      ∃ m, entry = ProgramEntry.reference m ∧ models.lookup m = none) :
    load_process_rules models entry defaultProcessRules = defaultProcessRules ∧
    defaultProcessRules.addresses = ["*"] ∧
    defaultProcessRules.start_sequence = 0 ∧
    defaultProcessRules.stop_sequence = 0 ∧
    defaultProcessRules.required = false ∧
    defaultProcessRules.wait_exit = false ∧
    defaultProcessRules.expected_loading = 1 ∧
    defaultProcessRules.running_failure_strategy
      = RunningFailureStrategies.CONTINUE := by
  refine ⟨?_, rfl, rfl, rfl, rfl, rfl, rfl, rfl⟩
  rcases h with rfl | rfl | ⟨m, rfl, hm⟩
  · rfl
  · rfl
  · simp [load_process_rules, hm]

theorem load_process_rules_defaults_witness :
    load_process_rules [("dummy_model_01", emptyProgramRuleFields)]
        (ProgramEntry.reference "dummy_model_X") defaultProcessRules
      = defaultProcessRules :=
  (load_process_rules_defaults [("dummy_model_01", emptyProgramRuleFields)]
    (ProgramEntry.reference "dummy_model_X")
    (Or.inr (Or.inr ⟨"dummy_model_X", rfl, by decide⟩))).1

/-- C10: when the matched rules specify no running-failure strategy, a
strategy already present on the process rules survives `load_process_rules`
unchanged, while every field the matched rules do specify is loaded from
them. -/
theorem load_process_rules_preserves_preset_strategy
    (models : List (String × ProgramRuleFields)) (m : String)
    (f : ProgramRuleFields) (r : ProcessRules)
    (hf : models.lookup m = some f)
    (hs : f.running_failure_strategy = none) :
    (load_process_rules models (ProgramEntry.reference m) r).running_failure_strategy
        = r.running_failure_strategy ∧
    (∀ v, f.addresses = some v →
      (load_process_rules models (ProgramEntry.reference m) r).addresses = v) ∧
    (∀ v, f.start_sequence = some v →
      (load_process_rules models (ProgramEntry.reference m) r).start_sequence = v) ∧
    (∀ v, f.stop_sequence = some v →
      (load_process_rules models (ProgramEntry.reference m) r).stop_sequence = v) ∧
    (∀ v, f.required = some v →
      (load_process_rules models (ProgramEntry.reference m) r).required = v) ∧
    (∀ v, f.wait_exit = some v →
      (load_process_rules models (ProgramEntry.reference m) r).wait_exit = v) ∧
    (∀ v, f.expected_loading = some v → 1 ≤ v → v ≤ 100 →
      (load_process_rules models (ProgramEntry.reference m) r).expected_loading = v) := by
  simp only [load_process_rules, hf]
  refine ⟨?_, ?_, ?_, ?_, ?_, ?_, ?_⟩
  · simp [applyProgramRuleFields, hs]
  · intro v hv
    simp [applyProgramRuleFields, hv]
  · intro v hv
    simp [applyProgramRuleFields, hv]
  · intro v hv
    simp [applyProgramRuleFields, hv]
  · intro v hv
    simp [applyProgramRuleFields, hv]
  · intro v hv
    simp [applyProgramRuleFields, hv]
  · intro v hv h1 h2
    simp [applyProgramRuleFields, hv, h1, h2]

theorem load_process_rules_preserves_preset_strategy_witness :
    (load_process_rules
        [("dummy_model_01",
          { emptyProgramRuleFields with
              addresses := some ["10.0.0.4", "10.0.0.2"],
              stop_sequence := some 100,
              expected_loading := some 10 })]
        (ProgramEntry.reference "dummy_model_01")
        { defaultProcessRules with
            running_failure_strategy :=
              RunningFailureStrategies.RESTART_APPLICATION }).running_failure_strategy
        = RunningFailureStrategies.RESTART_APPLICATION ∧
    (load_process_rules
        [("dummy_model_01",
          { emptyProgramRuleFields with
              addresses := some ["10.0.0.4", "10.0.0.2"],
              stop_sequence := some 100,
              expected_loading := some 10 })]
        (ProgramEntry.reference "dummy_model_01")
        { defaultProcessRules with
            running_failure_strategy :=
              RunningFailureStrategies.RESTART_APPLICATION }).expected_loading = 10 := by
  have h := load_process_rules_preserves_preset_strategy
    [("dummy_model_01",
      { emptyProgramRuleFields with
          addresses := some ["10.0.0.4", "10.0.0.2"],
          stop_sequence := some 100,
          expected_loading := some 10 })]
    "dummy_model_01"
    { emptyProgramRuleFields with
        addresses := some ["10.0.0.4", "10.0.0.2"],
        stop_sequence := some 100,
        expected_loading := some 10 }
    { defaultProcessRules with
        running_failure_strategy := RunningFailureStrategies.RESTART_APPLICATION }
    (by decide) rfl
  exact ⟨h.1, h.2.2.2.2.2.2 10 rfl (by decide) (by decide)⟩

end ClaimTheorems

section ClaimTheorems2

/-- C2 counterexample: with the local host not RUNNING and the synchro
timeout elapsed (no host UNKNOWN), the code stays in INITIALIZATION while the
claim's flat else-if chain demands DEPLOYMENT. -/
theorem initialization_next_counterexample :
    InitializationState.next env0 ctxSilentPeer 0
        = SupervisorsStates.INITIALIZATION ∧
    InitializationState.nextClaim env0 ctxSilentPeer 0
        = SupervisorsStates.DEPLOYMENT ∧
    env0.now - 0 > env0.synchro_timeout := by
  refine ⟨by decide, by decide, by decide⟩

/-- C2 amended: the INITIALIZATION evaluation yields DEPLOYMENT exactly when
the local host is RUNNING and, in addition, either no host is UNKNOWN or the
synchro timeout has elapsed; in every other case (in particular whenever the
local host is not RUNNING, timeout or not) it stays in INITIALIZATION. -/
theorem initialization_next_amended (env : Env) (ctx : Context) (d : Nat) :
    (InitializationState.next env ctx d = SupervisorsStates.DEPLOYMENT ↔
      env.local_address ∈ ctx.running_addresses ∧
        (ctx.unknown_addresses = [] ∨ env.now - d > env.synchro_timeout)) ∧
    (InitializationState.next env ctx d ≠ SupervisorsStates.DEPLOYMENT →
      InitializationState.next env ctx d = SupervisorsStates.INITIALIZATION) := by
  constructor
  · unfold InitializationState.next
    by_cases h1 : env.local_address ∈ ctx.running_addresses
    · by_cases h2 : ctx.unknown_addresses.length = 0
      · simp [h1, h2, List.length_eq_zero.mp h2]
      · have h2' : ¬ ctx.unknown_addresses = [] := by
          intro hc
          rw [hc] at h2
          exact h2 rfl
        by_cases h3 : env.now - d > env.synchro_timeout
        · simp [h1, h2, h2', h3]
        · simp [h1, h2, h2', h3]
    · simp [h1]
  · unfold InitializationState.next
    split_ifs <;> simp

theorem initialization_next_amended_witness :
    InitializationState.next env0 ctxAllRunning 95 = SupervisorsStates.DEPLOYMENT ∧
    InitializationState.next env0 ctxSilentPeer 5 = SupervisorsStates.INITIALIZATION :=
  ⟨(initialization_next_amended env0 ctxAllRunning 95).1.mpr
      ⟨by decide, Or.inl (by decide)⟩,
   (initialization_next_amended env0 ctxSilentPeer 5).2 (by decide)⟩

/-- C4: in OPERATION and in CONCILIATION, when the local and master statuses
are present, the evaluation returns INITIALIZATION as soon as either is not
RUNNING; otherwise OPERATION moves to CONCILIATION exactly when conflicts
exist, and CONCILIATION moves to OPERATION exactly when none remain. -/
theorem operation_conciliation_next_spec (env : Env) (ctx : Context)
    (stL stM : AddressStatus)
    (hL : ctx.findStatus env.local_address = some stL)
    (hM : ctx.findStatus ctx.master_address = some stM) :
    OperationState.next env ctx = some
      (if stL.state ≠ AddressStates.RUNNING ∨ stM.state ≠ AddressStates.RUNNING
        then SupervisorsStates.INITIALIZATION
        else if ctx.conflicting then SupervisorsStates.CONCILIATION
        else SupervisorsStates.OPERATION) ∧
    ConciliationState.next env ctx = some
      (if stL.state ≠ AddressStates.RUNNING ∨ stM.state ≠ AddressStates.RUNNING
        then SupervisorsStates.INITIALIZATION
        else if ctx.conflicting then SupervisorsStates.CONCILIATION
        else SupervisorsStates.OPERATION) := by
  unfold OperationState.next ConciliationState.next
  rw [hL, hM]
  by_cases h1 : stL.state = AddressStates.RUNNING
  · by_cases h2 : stM.state = AddressStates.RUNNING
    · by_cases h3 : ctx.conflicting <;> simp [h1, h2, h3]
    · simp [h1, h2]
  · simp [h1]

theorem operation_conciliation_next_spec_witness :
    OperationState.next env0 ctxAllRunning = some SupervisorsStates.OPERATION ∧
    ConciliationState.next env0 ctxAllRunning = some SupervisorsStates.OPERATION := by
  have h := operation_conciliation_next_spec env0 ctxAllRunning
    { state := AddressStates.RUNNING, checked := true }
    { state := AddressStates.RUNNING, checked := true }
    (by decide) (by decide)
  exact ⟨h.1.trans (by decide), h.2.trans (by decide)⟩

/-- C3: on exit from INITIALIZATION the context is first put through
`end_synchro()`, and only then is the master address set: it becomes an
address of the (unchanged) RUNNING set that no other RUNNING address
lexicographically precedes. -/
theorem initialization_exit_end_synchro_then_min_master (env : Env)
    (fs : FsmState)
    (h : (fs.ctx.end_synchro env.auto_fence).running_addresses ≠ []) :
    ∃ m, InitializationState.exit env fs = some
        { fs with ctx :=
          { fs.ctx.end_synchro env.auto_fence with master_address := m } } ∧
      m ∈ (fs.ctx.end_synchro env.auto_fence).running_addresses ∧
      (∀ a ∈ (fs.ctx.end_synchro env.auto_fence).running_addresses,
        a = m ∨ strLt m a = true) ∧
      (fs.ctx.end_synchro env.auto_fence).running_addresses
        = fs.ctx.running_addresses := by
  cases hr : (fs.ctx.end_synchro env.auto_fence).running_addresses with
  | nil => exact absurd hr h
  | cons x xs =>
    obtain ⟨m, hm, hmem, hmin⟩ := pymin_spec x xs
    refine ⟨m, ?_, hmem, hmin, ?_⟩
    · unfold InitializationState.exit
      rw [hr, hm]
    · rw [← hr]
      exact end_synchro_running _ _

theorem initialization_exit_end_synchro_then_min_master_witness :
    (ctxAllRunning.end_synchro env0.auto_fence).running_addresses ≠ [] ∧
    ∃ m, InitializationState.exit env0
        ⟨SupervisorsStates.INITIALIZATION, 0, ctxAllRunning⟩ = some
        { state := SupervisorsStates.INITIALIZATION, start_date := 0,
          ctx := { ctxAllRunning.end_synchro env0.auto_fence with
            master_address := m } } ∧
      m ∈ (ctxAllRunning.end_synchro env0.auto_fence).running_addresses ∧
      (∀ a ∈ (ctxAllRunning.end_synchro env0.auto_fence).running_addresses,
        a = m ∨ strLt m a = true) ∧
      (ctxAllRunning.end_synchro env0.auto_fence).running_addresses
        = ctxAllRunning.running_addresses :=
  ⟨by decide,
   initialization_exit_end_synchro_then_min_master env0
     ⟨SupervisorsStates.INITIALIZATION, 0, ctxAllRunning⟩ (by decide)⟩

end ClaimTheorems2

section ClaimTheorems3

/-- C1: every state installed by a `next()` call differs from the state it
replaces and is listed for it in the transition table; an evaluation result
that is not a legal transition leaves the FSM state unchanged (and installs
nothing). -/
theorem fsm_installs_only_table_transitions (env : Env) (fuel : Nat)
    (fs : FsmState) :
    legalChainB fs.state (fsmChain env fuel fs) = true ∧
    (∀ v, stateNext env fs = some v →
      ¬(v ≠ fs.state ∧ v ∈ Transitions fs.state) →
      fsmNextAux env fuel fs = (fs, [])) := by
  constructor
  · induction fuel generalizing fs with
    | zero => rfl
    | succ n ih =>
      simp only [fsmChain]
      cases h : stateNext env fs with
      | none => rfl
      | some ns =>
        dsimp only
        by_cases hc : ns ≠ fs.state ∧ ns ∈ Transitions fs.state
        · rw [if_pos hc]
          cases hx : stateExit env fs with
          | none => rfl
          | some fsl =>
            dsimp only
            have hst : (stateEnter env { fsl.1 with state := ns }).1.state = ns :=
              stateEnter_state env _
            simp only [legalChainB]
            rw [if_pos hc]
            have hrec := ih (stateEnter env { fsl.1 with state := ns }).1
            rw [hst] at hrec
            exact hrec
        · rw [if_neg hc]
          rfl
  · intro v hv hc
    cases fuel with
    | zero => rfl
    | succ n =>
      simp only [fsmNextAux, hv]
      rw [if_neg hc]

theorem fsm_installs_only_table_transitions_witness :
    legalChainB SupervisorsStates.OPERATION
        (fsmChain env0 5 ⟨SupervisorsStates.OPERATION, 0, ctxAllRunning⟩) = true ∧
    fsmNextAux env0 5 ⟨SupervisorsStates.OPERATION, 0, ctxAllRunning⟩
      = (⟨SupervisorsStates.OPERATION, 0, ctxAllRunning⟩, []) :=
  ⟨(fsm_installs_only_table_transitions env0 5
      ⟨SupervisorsStates.OPERATION, 0, ctxAllRunning⟩).1,
   (fsm_installs_only_table_transitions env0 5
      ⟨SupervisorsStates.OPERATION, 0, ctxAllRunning⟩).2
     SupervisorsStates.OPERATION (by decide) (by decide)⟩

/-- C8: the publications and enter actions of one `next()` call, in log
order, are exactly one publication of each installed state immediately
followed by the start of that state's `enter()` action, covering every
intermediate state of the chain in chaining order. -/
theorem next_publishes_before_enter (env : Env) (fuel : Nat) (fs : FsmState) :
    (fsmNextAux env fuel fs).2.filter isPubOrEnter
      = pubEnterSeq (fsmChain env fuel fs) := by
  induction fuel generalizing fs with
  | zero => rfl
  | succ n ih =>
    simp only [fsmNextAux, fsmChain]
    cases h : stateNext env fs with
    | none => rfl
    | some ns =>
      dsimp only
      by_cases hc : ns ≠ fs.state ∧ ns ∈ Transitions fs.state
      · rw [if_pos hc, if_pos hc]
        cases hx : stateExit env fs with
        | none => rfl
        | some fsl =>
          dsimp only
          have hexit := stateExit_log env fs fsl hx
          have henter := stateEnter_log_filter env { fsl.1 with state := ns }
          have hihx := ih (stateEnter env { fsl.1 with state := ns }).1
          simp [List.filter_append, hexit, henter, hihx, pubEnterSeq, isPubOrEnter]
      · rw [if_neg hc, if_neg hc]
        rfl

/-- The call `deploy_marked_processes` is never logged by the transition loop itself:
it only happens in `on_timer_event` after `next()` returned. -/
theorem fsmNextAux_no_deployMarked (env : Env) (fuel : Nat) (fs : FsmState)
    (ms : List String) :
    LogEvent.deployMarked ms ∉ (fsmNextAux env fuel fs).2 := by
  induction fuel generalizing fs with
  | zero => simp [fsmNextAux]
  | succ n ih =>
    simp only [fsmNextAux]
    cases h : stateNext env fs with
    | none => simp
    | some ns =>
      dsimp only
      by_cases hc : ns ≠ fs.state ∧ ns ∈ Transitions fs.state
      · rw [if_pos hc]
        cases hx : stateExit env fs with
        | none => simp
        | some fsl =>
          dsimp only
          have hexit := stateExit_log env fs fsl hx
          intro hmem
          rcases List.mem_append.mp hmem with hmem1 | hmem1
          · rcases List.mem_append.mp hmem1 with hmem2 | hmem2
            · rw [hexit] at hmem2
              simp at hmem2
            · rcases List.mem_cons.mp hmem2 with hmem3 | hmem3
              · exact LogEvent.noConfusion hmem3
              · exact stateEnter_no_deployMarked env _ ms hmem3
          · exact ih _ hmem1
      · rw [if_neg hc]
        simp

end ClaimTheorems3

section ClaimTheorems4

/-- C6: `on_timer_event` first runs the Context timer processing, then
`next()` (on the context the timer processing produced); it calls
`deploy_marked_processes(marked_processes())` if and only if the agent is
master once `next()` returned; and it returns the addresses
`handle_isolation()` newly isolates, i.e. those ISOLATING after `next()`. -/
theorem on_timer_event_structure (env : Env) (fuel : Nat) (fs : FsmState) :
    (fsm_on_timer_event env fuel fs).2.1
      = LogEvent.ctxTimer ::
        ((fsmNextAux env fuel { fs with ctx := env.ctx_on_timer fs.ctx }).2 ++
          (if (fsmNextAux env fuel
                { fs with ctx := env.ctx_on_timer fs.ctx }).1.ctx.master
              env.local_address then
            [LogEvent.deployMarked
              (fsmNextAux env fuel
                { fs with ctx := env.ctx_on_timer fs.ctx }).1.ctx.marked_processes]
          else []) ++ [LogEvent.handleIsolationCall]) ∧
    ((∃ ms, LogEvent.deployMarked ms ∈ (fsm_on_timer_event env fuel fs).2.1) ↔
      (fsmNextAux env fuel { fs with ctx := env.ctx_on_timer fs.ctx }).1.ctx.master
          env.local_address = true) ∧
    (fsm_on_timer_event env fuel fs).2.2
      = ((fsmNextAux env fuel
            { fs with ctx := env.ctx_on_timer fs.ctx }).1.ctx.addresses.filter
          (fun p => p.2.state = AddressStates.ISOLATING)).map Prod.fst := by
  refine ⟨rfl, ?_, rfl⟩
  constructor
  · rintro ⟨ms, hms⟩
    have hlog : (fsm_on_timer_event env fuel fs).2.1
        = LogEvent.ctxTimer ::
          ((fsmNextAux env fuel { fs with ctx := env.ctx_on_timer fs.ctx }).2 ++
            (if (fsmNextAux env fuel
                  { fs with ctx := env.ctx_on_timer fs.ctx }).1.ctx.master
                env.local_address then
              [LogEvent.deployMarked
                (fsmNextAux env fuel
                  { fs with ctx := env.ctx_on_timer fs.ctx }).1.ctx.marked_processes]
            else []) ++ [LogEvent.handleIsolationCall]) := rfl
    rw [hlog] at hms
    rcases List.mem_cons.mp hms with h1 | h1
    · exact LogEvent.noConfusion h1
    · rcases List.mem_append.mp h1 with h2 | h2
      · rcases List.mem_append.mp h2 with h3 | h3
        · exact absurd h3 (fsmNextAux_no_deployMarked env fuel _ ms)
        · by_cases hm : (fsmNextAux env fuel
              { fs with ctx := env.ctx_on_timer fs.ctx }).1.ctx.master
                env.local_address = true
          · exact hm
          · rw [if_neg hm] at h3
            exact absurd h3 (List.not_mem_nil _)
      · rcases List.mem_cons.mp h2 with h3 | h3
        · exact LogEvent.noConfusion h3
        · exact absurd h3 (List.not_mem_nil _)
  · intro hm
    refine ⟨(fsmNextAux env fuel
        { fs with ctx := env.ctx_on_timer fs.ctx }).1.ctx.marked_processes, ?_⟩
    have hlog : (fsm_on_timer_event env fuel fs).2.1
        = LogEvent.ctxTimer ::
          ((fsmNextAux env fuel { fs with ctx := env.ctx_on_timer fs.ctx }).2 ++
            (if (fsmNextAux env fuel
                  { fs with ctx := env.ctx_on_timer fs.ctx }).1.ctx.master
                env.local_address then
              [LogEvent.deployMarked
                (fsmNextAux env fuel
                  { fs with ctx := env.ctx_on_timer fs.ctx }).1.ctx.marked_processes]
            else []) ++ [LogEvent.handleIsolationCall]) := rfl
    rw [hlog, if_pos hm]
    simp

end ClaimTheorems4
